import Mathlib

/-!
Shallow embedding of the call-event broadcast engine implemented in
src/backend/routes/incomingCalls.js.

Modelling conventions:
* JavaScript strings are Lean `String`s.  The JS helpers `trim`,
  `toLowerCase` and the regex `replace(/\D/g, '')` are embedded as
  character-list computations (`jsTrim`, `jsToLower`, `stripNonDigits`)
  so that concrete inputs evaluate inside the kernel.
* Nullable / optional JS values are `Option` values.  JS truthiness on
  strings (only the empty string is falsy) is `strTruthy`; truthiness on
  numbers (only 0 is falsy among the modelled values) is `intTruthy`.
* The module-level mutable variables of the route file
  (`listeners`, `lastCall`, `sequence`, `secretWarningLogged`,
  `callHistory`) form the record `ServerState`.  A subscriber (the JS
  listener object, holding a response handle and a heartbeat timer) is
  identified by a `Nat`; the set `listeners` and the set of listeners
  whose heartbeat interval is still armed are lists of such identifiers.
* `event.id` is produced in JS as `String(++sequence)`; the embedding
  keeps the underlying numeric value (the rendering through `String` is
  injective and preserves the counter semantics).
* `res.write` outcomes are supplied as an oracle `w : Nat → Bool`
  (does the write to this subscriber succeed for the event being
  broadcast); a failed write raises in JS and is caught by the
  `try/catch` in `broadcast`.
* `new Date().toISOString()` is an environment input carried on the
  request (`receivedAt`).
* The `db.query` collaborator of the /log route is an input function
  from the queried digit strings to either failure (the JS `catch`
  branch) or a list of rows, each row possibly null, with nullable
  `name`/`phone` columns.
-/

namespace IncomingCalls

/-- JS `String.prototype.trim`, embedded on the character list. -/
def jsTrim (s : String) : String :=
  (((s.toList.dropWhile Char.isWhitespace).reverse.dropWhile Char.isWhitespace).reverse).asString

/-- JS `String.prototype.toLowerCase` (ASCII range), embedded on the character list. -/
def jsToLower (s : String) : String :=
  (s.toList.map Char.toLower).asString

/-- JS `str.startsWith('+')`. -/
def jsStartsWithPlus (s : String) : Bool :=
  s.toList.head? == some '+'

/-- JS `str.replace(/\D/g, '')`: keep exactly the decimal digits. -/
def stripNonDigits (s : String) : String :=
  (s.toList.filter Char.isDigit).asString

/-- JS `str.slice(0, 20)` on an all-ASCII string. -/
def take20 (s : String) : String :=
  (s.toList.take 20).asString

/-- JS truthiness of a nullable string: null/undefined and "" are falsy. -/
def strTruthy : Option String → Bool
  | none => false
  | some s => s != ""

/-- JS truthiness of a nullable integer: null/undefined and 0 are falsy. -/
def intTruthy : Option Int → Bool
  | none => false
  | some v => v != 0

/-- JS `a || b` on nullable strings. -/
def jsOrStr (a b : Option String) : Option String :=
  if strTruthy a then a else b

/-- JS `x.trim()` followed by `|| null` (empty string collapses to null);
`none` models a null/undefined (or non-string, for the `typeof` guarded
fields) input. -/
def trimOrNull : Option String → Option String
  | none => none
  | some s => if jsTrim s = "" then none else some (jsTrim s)

/-- The `MAX_HISTORY` constant of the route file. -/
def MAX_HISTORY : Nat := 500

/-- The `STATUS_LABELS` set of the route file. -/
def STATUS_LABELS : List String := ["ringing", "answered", "missed", "rejected"]

/-- The `normalizeStatus` function of the route file.  `none` models an
absent field; the `rawStatus = ""` test is the JS falsiness guard
`if (!rawStatus)`. -/
def normalizeStatus : Option String → String
  | none => "ringing"
  | some rawStatus =>
    if rawStatus = "" then "ringing"
    else
      let status := jsToLower (jsTrim rawStatus)
      if STATUS_LABELS.contains status then status
      else if status = "no_answer" || status = "noanswer" then "missed"
      else "ringing"

/-- Result of `sanitizePhone`: the pair `{ display, digits }`. -/
structure PhoneParts where
  display : String
  digits : String
deriving DecidableEq, Repr

/-- The `sanitizePhone` function of the route file. -/
def sanitizePhone : Option String → PhoneParts
  | none => ⟨"", ""⟩
  | some rawValue =>
    let str := jsTrim rawValue
    if str = "" then ⟨"", ""⟩
    else
      let digits0 := stripNonDigits str
      let startsWithPlus := jsStartsWithPlus str
      if digits0 = "" then ⟨"", ""⟩
      else
        let digits := if digits0.length > 20 then take20 digits0 else digits0
        let display := if startsWithPlus then "+" ++ digits else digits
        ⟨display, digits⟩

/-- One normalized call event, the `entry` object stored in history and
broadcast (the spread `...event` flattened; `meta.callerName` and
`meta.personId` are the last two fields). -/
structure CallEntry where
  id : Nat
  phone : String
  digits : String
  extension : Option String
  source : Option String
  received_at : String
  status : String
  note : Option String
  callerName : Option String
  personId : Option Int
deriving DecidableEq, Repr

/-- The `storeInHistory` function: `unshift` then conditional `pop`. -/
def storeInHistory (entry : CallEntry) (callHistory : List CallEntry) : List CallEntry :=
  let h1 := entry :: callHistory
  if h1.length > MAX_HISTORY then h1.dropLast else h1

/-- The mutable listener bookkeeping: the `listeners` set and, for each
listener object, whether its heartbeat interval is still armed. -/
structure HubState where
  listeners : List Nat
  hbActive : List Nat
deriving DecidableEq, Repr

/-- The `cleanupListener` function: clear the heartbeat interval and
delete the listener from the set. -/
def cleanupListener (l : Nat) (st : HubState) : HubState :=
  { listeners := st.listeners.filter (fun x => x != l),
    hbActive := st.hbActive.filter (fun x => x != l) }

/-- Whether the heartbeat interval of listener `l` is still armed, i.e.
whether a later timer tick would perform a keep-alive write for `l`. -/
def heartbeatArmed (l : Nat) (st : HubState) : Bool :=
  st.hbActive.contains l

/-- The loop body of `broadcast`, iterating over the snapshot
`Array.from(listeners)`: a successful write delivers the payload, a
throwing write is caught and triggers `cleanupListener`.  Returns the
final state and the listeners that received the payload, in iteration
order. -/
def broadcastGo (w : Nat → Bool) : List Nat → HubState → HubState × List Nat
  | [], st => (st, [])
  | l :: rest, st =>
    if w l then
      let r := broadcastGo w rest st
      (r.1, l :: r.2)
    else
      broadcastGo w rest (cleanupListener l st)

/-- The `broadcast` function of the route file (the payload string is a
function of the event alone; delivery is recorded per listener). -/
def broadcast (w : Nat → Bool) (st : HubState) : HubState × List Nat :=
  broadcastGo w st.listeners st

/-- The body of a POST ingestion request, as the embedding reads it:
the phone-like fields, the optional metadata fields, the three secret
channels, and the ingestion timestamp environment input. -/
structure IngressRequest where
  headerSecret : Option String
  bodySecret : Option String
  querySecret : Option String
  phone : Option String
  caller : Option String
  number : Option String
  extension : Option String
  source : Option String
  status : Option String
  note : Option String
  name : Option String
  personId : Option Int
  receivedAt : String
deriving DecidableEq, Repr

/-- `req.get('x-pbx-secret') || req.body?.secret || req.query?.secret`. -/
def providedSecret (req : IngressRequest) : Option String :=
  jsOrStr (jsOrStr req.headerSecret req.bodySecret) req.querySecret

/-- `req.body?.phone ?? req.body?.caller ?? req.body?.number ?? ''`. -/
def phoneRaw (req : IngressRequest) : String :=
  (req.phone <|> req.caller <|> req.number).getD ""

/-- The module-level mutable state of the route file. -/
structure ServerState where
  hub : HubState
  lastCall : Option CallEntry
  sequence : Nat
  secretWarningLogged : Bool
  callHistory : List CallEntry
deriving DecidableEq, Repr

/-- State at module load: empty listener set, no last call, counter 0,
warning not yet logged, empty history. -/
def initialState : ServerState :=
  { hub := { listeners := [], hbActive := [] },
    lastCall := none,
    sequence := 0,
    secretWarningLogged := false,
    callHistory := [] }

/-- HTTP outcome of the POST ingestion handler. -/
inductive PostResponse
  | unauthorized
  | badRequest
  | ok
deriving DecidableEq, Repr

/-- The `entry` object built by the POST handler for the freshly
allocated id `newId` (in JS, `String(++sequence)`). -/
def mkEntry (req : IngressRequest) (newId : Nat) (p : PhoneParts) : CallEntry :=
  { id := newId,
    phone := if p.display != "" then p.display else p.digits,
    digits := p.digits,
    extension := trimOrNull req.extension,
    source := trimOrNull req.source,
    received_at := req.receivedAt,
    status := normalizeStatus req.status,
    note := trimOrNull req.note,
    callerName := trimOrNull req.name,
    personId := req.personId }

/-- The POST handler from the phone check onward (after the secret
check and the one-time warning). -/
def handlePostBody (req : IngressRequest) (w : Nat → Bool) (st : ServerState) :
    ServerState × PostResponse :=
  let p := sanitizePhone (some (phoneRaw req))
  if p.display = "" && p.digits = "" then (st, .badRequest)
  else
    let entry := mkEntry req (st.sequence + 1) p
    let st1 : ServerState :=
      { st with
        sequence := st.sequence + 1,
        callHistory := storeInHistory entry st.callHistory,
        lastCall := some entry,
        hub := (broadcast w st.hub).1 }
    (st1, .ok)

/-- The `router.post('/')` handler.  `env` is
`process.env.PBX_WEBHOOK_SECRET` (its JS truthiness test is
`strTruthy env`); `w` is the per-subscriber write outcome oracle for the
broadcast of this event. -/
def handlePost (env : Option String) (req : IngressRequest) (w : Nat → Bool)
    (st : ServerState) : ServerState × PostResponse :=
  if strTruthy env then
    if !(strTruthy (providedSecret req)) || providedSecret req != env then
      (st, .unauthorized)
    else
      handlePostBody req w st
  else
    let st1 := if st.secretWarningLogged then st else { st with secretWarningLogged := true }
    handlePostBody req w st1

/-- The `router.get('/stream')` handler's effect on the shared state:
an authorized request registers a fresh listener object with an armed
heartbeat interval; an unauthorized request changes nothing. -/
def streamOpen (user : Bool) (newListener : Nat) (st : ServerState) : ServerState :=
  if user then
    { st with
      hub := { listeners := st.hub.listeners ++ [newListener],
               hbActive := st.hub.hbActive ++ [newListener] } }
  else st

/-- One row of the `people` table as returned by the `db.query`
collaborator: `SELECT id, name, phone`; the whole row and each of
`name`, `phone` may be null. -/
structure PersonRow where
  id : Int
  name : Option String
  phone : Option String
deriving DecidableEq, Repr

/-- The value stored in the `peopleByPhone` map. -/
structure PersonRef where
  id : Int
  name : Option String
deriving DecidableEq, Repr

/-- The `db.query` collaborator of the /log route: from the list of
digit strings to either a thrown error or a row list. -/
def DbFn : Type := List String → Except Unit (List (Option PersonRow))

/-- The loop building `peopleByPhone`: skip null rows, skip falsy or
blank phone keys, first insertion per key wins
(`hasOwnProperty` guard). -/
def addRow (acc : List (String × PersonRef)) (row : Option PersonRow) :
    List (String × PersonRef) :=
  match row with
  | none => acc
  | some r =>
    match r.phone with
    | none => acc
    | some p =>
      if p = "" then acc
      else
        let key := jsTrim p
        if key = "" then acc
        else if (acc.lookup key).isSome then acc
        else acc ++ [(key, { id := r.id, name := r.name })]

/-- `peopleByPhone` built from a query result. -/
def buildPeople (rows : List (Option PersonRow)) : List (String × PersonRef) :=
  rows.foldl addRow []

/-- `Array.from(new Set(xs))`: deduplicate keeping first occurrences in
insertion order. -/
def jsSetList (xs : List String) : List String :=
  xs.foldl (fun acc d => if acc.contains d then acc else acc ++ [d]) []

/-- `Number.parseInt(req.query?.limit, 10) || 100` followed by the
`Math.min`/`Math.max` clamp.  `none` models an absent or unparseable
(`NaN`) limit parameter. -/
def effLimit (q : Option Int) : Int :=
  let p : Int := match q with
    | none => 100
    | some v => if v = 0 then 100 else v
  max 1 (min p 500)

/-- One row of the /log response. -/
structure LogRow where
  id : Nat
  phone : String
  digits : String
  received_at : String
  extension : Option String
  source : Option String
  status : String
  note : Option String
  caller_name : Option String
  person_id : Option Int
deriving DecidableEq, Repr

/-- The enrichment of one history entry in the /log handler:
`peopleByPhone[entry.digits]` guarded by the truthiness of
`entry.digits`, then the `||` merge chains for `caller_name` and
`person_id`. -/
def mkLogRow (people : List (String × PersonRef)) (e : CallEntry) : LogRow :=
  let person : Option PersonRef := if e.digits != "" then people.lookup e.digits else none
  { id := e.id,
    phone := e.phone,
    digits := e.digits,
    received_at := e.received_at,
    extension := e.extension,
    source := e.source,
    status := e.status,
    note := e.note,
    caller_name :=
      if strTruthy e.callerName then e.callerName
      else if strTruthy (person.bind PersonRef.name) then person.bind PersonRef.name
      else none,
    person_id :=
      if intTruthy e.personId then e.personId
      else if intTruthy (person.map PersonRef.id) then person.map PersonRef.id
      else none }

/-- HTTP outcome of the /log handler. -/
inductive LogResponse
  | unauthorized
  | entries : List LogRow → LogResponse
deriving DecidableEq, Repr

/-- The `router.get('/log')` handler.  `user` is the `req.user`
authorization capability; `q` the parsed limit parameter; `db` the
collaborator. -/
def handleLog (user : Bool) (q : Option Int) (db : DbFn) (st : ServerState) : LogResponse :=
  if !user then .unauthorized
  else
    let limit := effLimit q
    let slice := st.callHistory.take limit.toNat
    let ds := jsSetList ((slice.map CallEntry.digits).filter (fun d => d != ""))
    let people :=
      if ds.isEmpty then []
      else
        match db ds with
        | .ok rows => buildPeople rows
        | .error _ => []
    .entries (slice.map (mkLogRow people))

/-- The states reachable from module load through the mutating
handlers: POST ingestion, stream subscription, and any
listener-teardown trigger (client close, write failure, heartbeat
failure — all of which run `cleanupListener`). -/
inductive Reachable : ServerState → Prop where
  | init : Reachable initialState
  | post (env : Option String) (req : IngressRequest) (w : Nat → Bool) (st : ServerState) :
      Reachable st → Reachable (handlePost env req w st).1
  | stream (user : Bool) (newListener : Nat) (st : ServerState) :
      Reachable st → Reachable (streamOpen user newListener st)
  | close (l : Nat) (st : ServerState) :
      Reachable st → Reachable { st with hub := cleanupListener l st.hub }

end IncomingCalls

namespace IncomingCalls

/-! ### Helper lemmas about the History Ring -/

/-- Iterated insertion into the history ring, oldest request first. -/
def pushAll (es : List CallEntry) (callHistory : List CallEntry) : List CallEntry :=
  es.foldl (fun acc e => storeInHistory e acc) callHistory

lemma storeInHistory_eq_take (e : CallEntry) (h : List CallEntry)
    (hh : h.length ≤ MAX_HISTORY) : storeInHistory e h = (e :: h).take MAX_HISTORY := by
  unfold storeInHistory
  rcases Nat.lt_or_ge h.length MAX_HISTORY with hlt | hge
  · rw [if_neg (by simp; omega)]
    exact (List.take_of_length_le (by simp; omega)).symm
  · have hlen : h.length = MAX_HISTORY := le_antisymm hh hge
    rw [if_pos (by simp [hlen])]
    rw [List.dropLast_eq_take]
    simp [hlen]

lemma storeInHistory_length_le (e : CallEntry) (h : List CallEntry)
    (hh : h.length ≤ MAX_HISTORY) : (storeInHistory e h).length ≤ MAX_HISTORY := by
  rw [storeInHistory_eq_take e h hh]
  simp

lemma take_append_take (n : Nat) (a b : List CallEntry) :
    (a ++ b.take n).take n = (a ++ b).take n := by
  rw [List.take_append_eq_append_take, List.take_append_eq_append_take, List.take_take,
    Nat.min_eq_left (Nat.sub_le n a.length)]

lemma pushAll_eq_take (es : List CallEntry) :
    ∀ h : List CallEntry, h.length ≤ MAX_HISTORY →
      pushAll es h = (es.reverse ++ h).take MAX_HISTORY := by
  induction es with
  | nil =>
    intro h hh
    simpa [pushAll] using (List.take_of_length_le hh).symm
  | cons e es ih =>
    intro h hh
    have hstep : pushAll (e :: es) h = pushAll es (storeInHistory e h) := rfl
    rw [hstep, ih _ (storeInHistory_length_le e h hh),
      storeInHistory_eq_take e h hh, take_append_take]
    simp [List.append_assoc]

/-! ### Helper lemmas about the Broadcast Hub -/

lemma mem_cleanupListener {x l : Nat} {st : HubState} :
    x ∈ (cleanupListener l st).listeners ↔ x ∈ st.listeners ∧ x ≠ l := by
  simp [cleanupListener]

lemma not_mem_broadcastGo_of_not_mem (w : Nat → Bool) (snap : List Nat) :
    ∀ st : HubState, ∀ x, x ∉ st.listeners → x ∉ (broadcastGo w snap st).1.listeners := by
  induction snap with
  | nil => intro st x hx; simpa [broadcastGo] using hx
  | cons l rest ih =>
    intro st x hx
    unfold broadcastGo
    by_cases hw : w l
    · simpa [hw] using ih st x hx
    · have : x ∉ (cleanupListener l st).listeners := by
        rw [mem_cleanupListener]; tauto
      simpa [hw] using ih _ x this

lemma broadcastGo_removes (w : Nat → Bool) (snap : List Nat) :
    ∀ st : HubState, ∀ S, S ∈ snap → w S = false →
      S ∉ (broadcastGo w snap st).1.listeners := by
  induction snap with
  | nil => intro st S hS; cases hS
  | cons l rest ih =>
    intro st S hS hw
    unfold broadcastGo
    rcases List.mem_cons.mp hS with rfl | hmem
    · rw [if_neg (by simp [hw])]
      exact not_mem_broadcastGo_of_not_mem w rest _ S
        (by rw [mem_cleanupListener]; tauto)
    · by_cases hwl : w l
      · simpa [hwl] using ih st S hmem hw
      · simpa [hwl] using ih (cleanupListener l st) S hmem hw

lemma broadcastGo_delivered (w : Nat → Bool) (snap : List Nat) :
    ∀ st : HubState, (broadcastGo w snap st).2 = snap.filter w := by
  induction snap with
  | nil => intro st; rfl
  | cons l rest ih =>
    intro st
    unfold broadcastGo
    by_cases hwl : w l
    · simp [hwl, ih st]
    · simp [hwl, ih (cleanupListener l st)]

/-! ### Response characterization of the POST handler -/

/-- The condition under which the POST handler answers 401: a secret is
configured and the provided credential is falsy or different. -/
def authRejects (env : Option String) (req : IngressRequest) : Bool :=
  strTruthy env && (!(strTruthy (providedSecret req)) || providedSecret req != env)

/-- The one-time-warning update of the POST handler: in open mode
(no configured secret) the warning flag is raised; otherwise the state
is untouched. -/
def warnAdjust (env : Option String) (st : ServerState) : ServerState :=
  if strTruthy env then st
  else if st.secretWarningLogged then st else { st with secretWarningLogged := true }

lemma warnAdjust_fields (env : Option String) (st : ServerState) :
    (warnAdjust env st).hub = st.hub ∧ (warnAdjust env st).lastCall = st.lastCall ∧
    (warnAdjust env st).sequence = st.sequence ∧
    (warnAdjust env st).callHistory = st.callHistory := by
  unfold warnAdjust
  split <;> [skip; split] <;> simp

lemma handlePost_eq_unauth (env : Option String) (req : IngressRequest) (w : Nat → Bool)
    (st : ServerState) (h : authRejects env req = true) :
    handlePost env req w st = (st, .unauthorized) := by
  unfold handlePost
  rcases Bool.and_eq_true .. |>.mp h with ⟨h1, h2⟩
  rw [if_pos h1, if_pos h2]

lemma handlePost_eq_body (env : Option String) (req : IngressRequest) (w : Nat → Bool)
    (st : ServerState) (h : authRejects env req = false) :
    handlePost env req w st = handlePostBody req w (warnAdjust env st) := by
  unfold handlePost warnAdjust
  by_cases h1 : strTruthy env
  · have h2 : (!(strTruthy (providedSecret req)) || providedSecret req != env) = false := by
      have := h
      unfold authRejects at this
      rwa [h1, Bool.true_and] at this
    rw [if_pos h1, if_neg (by simp [h2]), if_pos h1]
  · rw [if_neg h1, if_neg h1]

lemma handlePostBody_badRequest (req : IngressRequest) (w : Nat → Bool) (st : ServerState)
    (h : sanitizePhone (some (phoneRaw req)) = ⟨"", ""⟩) :
    handlePostBody req w st = (st, .badRequest) := by
  unfold handlePostBody
  rw [h]
  rfl

lemma handlePostBody_ok (req : IngressRequest) (w : Nat → Bool) (st : ServerState)
    (h : sanitizePhone (some (phoneRaw req)) ≠ ⟨"", ""⟩) :
    handlePostBody req w st =
      ({ st with
          sequence := st.sequence + 1,
          callHistory := storeInHistory
            (mkEntry req (st.sequence + 1) (sanitizePhone (some (phoneRaw req)))) st.callHistory,
          lastCall := some (mkEntry req (st.sequence + 1) (sanitizePhone (some (phoneRaw req)))),
          hub := (broadcast w st.hub).1 }, .ok) := by
  unfold handlePostBody
  rw [if_neg]
  intro hc
  rcases Bool.and_eq_true .. |>.mp hc with ⟨h1, h2⟩
  exact h (by
    have e1 := of_decide_eq_true h1
    have e2 := of_decide_eq_true h2
    cases hp : sanitizePhone (some (phoneRaw req))
    rw [hp] at e1 e2
    simp only at e1 e2
    rw [e1, e2])

lemma handlePostBody_resp_iff (req : IngressRequest) (w : Nat → Bool) (st : ServerState) :
    (handlePostBody req w st).2 = .badRequest ↔
      sanitizePhone (some (phoneRaw req)) = ⟨"", ""⟩ := by
  constructor
  · intro h
    by_contra hc
    rw [handlePostBody_ok req w st hc] at h
    exact PostResponse.noConfusion h
  · intro h
    rw [handlePostBody_badRequest req w st h]

lemma handlePost_resp (env : Option String) (req : IngressRequest) (w : Nat → Bool)
    (st : ServerState) :
    (handlePost env req w st).2 =
      if authRejects env req then .unauthorized
      else if sanitizePhone (some (phoneRaw req)) = ⟨"", ""⟩ then .badRequest
      else .ok := by
  by_cases ha : authRejects env req
  · rw [handlePost_eq_unauth env req w st ha, if_pos ha]
  · rw [handlePost_eq_body env req w st (by simpa using ha), if_neg ha]
    by_cases hp : sanitizePhone (some (phoneRaw req)) = ⟨"", ""⟩
    · rw [handlePostBody_badRequest req w _ hp, if_pos hp]
    · rw [handlePostBody_ok req w _ hp, if_neg hp]

/-- A sample call entry used by concrete witnesses. -/
def sampleEntry : CallEntry :=
  { id := 0, phone := "1", digits := "1", extension := none, source := none,
    received_at := "t", status := "ringing", note := none, callerName := none,
    personId := none }

/-- C2: the History Ring never exceeds MAX_HISTORY = 500 entries; after
any sequence of insertions starting from the empty ring the ring holds
exactly the most recent 500 events newest-first (the reversal of the
insertion order, truncated to 500); each insertion prepends, and an
insertion into a full ring evicts exactly the oldest (last) entry. -/
theorem historyRing_bounded_newest_first (es : List CallEntry) :
    pushAll es [] = es.reverse.take MAX_HISTORY ∧
    (pushAll es []).length ≤ MAX_HISTORY ∧
    (∀ e h, h.length < MAX_HISTORY → storeInHistory e h = e :: h) ∧
    (∀ e h, h.length = MAX_HISTORY → storeInHistory e h = e :: h.dropLast) := by
  have h1 : pushAll es [] = es.reverse.take MAX_HISTORY := by
    simpa using pushAll_eq_take es [] (by simp)
  refine ⟨h1, ?_, ?_, ?_⟩
  · rw [h1, List.length_take]
    exact Nat.min_le_left _ _
  · intro e h hlt
    unfold storeInHistory
    rw [if_neg (by simp; omega)]
  · intro e h heq
    unfold storeInHistory
    rw [if_pos (by simp [heq])]
    cases h with
    | nil => simp [MAX_HISTORY] at heq
    | cons a t => rfl

/-- Witness for C2: a prepend below capacity and an eviction at
capacity, on concrete rings. -/
theorem historyRing_bounded_newest_first_witness :
    storeInHistory sampleEntry [] = [sampleEntry] ∧
    storeInHistory sampleEntry (List.replicate MAX_HISTORY sampleEntry) =
      sampleEntry :: (List.replicate MAX_HISTORY sampleEntry).dropLast :=
  ⟨(historyRing_bounded_newest_first []).2.2.1 sampleEntry [] (by simp [MAX_HISTORY]),
   (historyRing_bounded_newest_first []).2.2.2 sampleEntry _ (by simp)⟩

/-- C3: when the write to subscriber S fails during a broadcast, S is
unregistered, every other registered subscriber whose write succeeds
still receives the event, and the failure is never surfaced to the
publisher (the POST response is the same under every write-outcome
oracle). -/
theorem broadcast_isolates_failed_subscriber (st : HubState) (w : Nat → Bool) (S : Nat)
    (hS : S ∈ st.listeners) (hfail : w S = false) :
    S ∉ (broadcast w st).1.listeners ∧
    (∀ T, T ∈ st.listeners → w T = true → T ∈ (broadcast w st).2) ∧
    (∀ env req stf w2, (handlePost env req w stf).2 = (handlePost env req w2 stf).2) := by
  refine ⟨broadcastGo_removes w st.listeners st S hS hfail, ?_, ?_⟩
  · intro T hT hw
    rw [broadcast, broadcastGo_delivered]
    exact List.mem_filter.mpr ⟨hT, hw⟩
  · intro env req stf w2
    rw [handlePost_resp, handlePost_resp]

/-- Witness for C3: subscriber 3's write fails while subscriber 5's
succeeds; 3 is unregistered and 5 is still delivered to. -/
theorem broadcast_isolates_failed_subscriber_witness :
    3 ∉ (broadcast (fun x => x != 3) ⟨[3, 5], [3, 5]⟩).1.listeners ∧
    5 ∈ (broadcast (fun x => x != 3) ⟨[3, 5], [3, 5]⟩).2 :=
  ⟨(broadcast_isolates_failed_subscriber ⟨[3, 5], [3, 5]⟩ (fun x => x != 3) 3
      (by decide) (by decide)).1,
   (broadcast_isolates_failed_subscriber ⟨[3, 5], [3, 5]⟩ (fun x => x != 3) 3
      (by decide) (by decide)).2.1 5 (by decide) (by decide)⟩

/-- C4: cleaning up a subscriber session is idempotent — a second
invocation leaves the subscriber set and the heartbeat bookkeeping
exactly as after the first (and, being a total function, raises no
error) — and after any cleanup the session's heartbeat timer is
disarmed, so no later heartbeat tick writes for that session. -/
theorem cleanupListener_idempotent (st : HubState) (l : Nat) :
    cleanupListener l (cleanupListener l st) = cleanupListener l st ∧
    heartbeatArmed l (cleanupListener l st) = false := by
  constructor
  · unfold cleanupListener
    simp [List.filter_filter]
  · unfold heartbeatArmed cleanupListener
    simp

/-! ### Phone and status normalization (C5, C6) -/

lemma take20_eq_self {s : String} (h : s.length ≤ 20) : take20 s = s := by
  unfold take20
  rw [List.take_of_length_le (show s.toList.length ≤ 20 from h)]
  cases s
  rfl

/-- Counterexample to C5 as stated: for the raw input "+" the trimmed
value starts with '+' and its digit-stripped form is empty, so the
claim's formula predicts the display "+" ++ "" = "+", but the code
returns the empty display (and hence rejects the ingestion). -/
theorem sanitizePhone_plus_prefix_counterexample :
    jsStartsWithPlus (jsTrim "+") = true ∧
    take20 (stripNonDigits (jsTrim "+")) = "" ∧
    (sanitizePhone (some "+")).display = "" ∧
    (sanitizePhone (some "+")).display ≠
      "+" ++ take20 (stripNonDigits (jsTrim "+")) := by
  refine ⟨by decide, by decide, by decide, by decide⟩

/-- C5 (amended): normalization trims the raw input, strips all
non-digit characters to produce `digits`, truncates `digits` to 20
characters, and — provided the stripped digits are nonempty — sets the
display to the digits prefixed with '+' exactly when the trimmed input
started with '+'; when the stripped digits are empty (in particular for
an absent input) both display and digits are empty, and an ingestion
whose phone-like field yields an empty display and empty digits is
rejected with 400; the input "+1 (555) 012-3456" yields display
"+15550123456" and digits "15550123456". -/
theorem sanitizePhone_spec (raw : String) :
    (stripNonDigits (jsTrim raw) = "" → sanitizePhone (some raw) = ⟨"", ""⟩) ∧
    (stripNonDigits (jsTrim raw) ≠ "" →
      sanitizePhone (some raw) =
        ⟨if jsStartsWithPlus (jsTrim raw) then "+" ++ take20 (stripNonDigits (jsTrim raw))
          else take20 (stripNonDigits (jsTrim raw)),
         take20 (stripNonDigits (jsTrim raw))⟩) ∧
    sanitizePhone none = ⟨"", ""⟩ ∧
    sanitizePhone (some "+1 (555) 012-3456") = ⟨"+15550123456", "15550123456"⟩ ∧
    (∀ req w st, (handlePostBody req w st).2 = .badRequest ↔
      sanitizePhone (some (phoneRaw req)) = ⟨"", ""⟩) := by
  refine ⟨?_, ?_, rfl, by decide, fun req w st => handlePostBody_resp_iff req w st⟩
  · intro h
    simp only [sanitizePhone]
    split_ifs with h1 <;> rfl
  · intro h
    have h1 : jsTrim raw ≠ "" := by
      intro e
      exact h (by rw [e]; rfl)
    simp only [sanitizePhone]
    rw [if_neg h1, if_neg h]
    by_cases hlen : (stripNonDigits (jsTrim raw)).length > 20
    · rw [if_pos hlen]
    · rw [if_neg hlen, take20_eq_self (by omega)]

/-- Witness for C5: the truncating branch evaluated on the spec's own
example input, and the rejection equivalence evaluated on an
empty-phone request. -/
theorem sanitizePhone_spec_witness :
    sanitizePhone (some " +1 (555) 012-3456 ") =
      ⟨"+" ++ take20 (stripNonDigits (jsTrim " +1 (555) 012-3456 ")),
       take20 (stripNonDigits (jsTrim " +1 (555) 012-3456 "))⟩ := by
  have h := (sanitizePhone_spec " +1 (555) 012-3456 ").2.1 (by decide)
  rw [h]
  decide

/-- C6: status normalization trims and lowercases the raw value,
returns it verbatim when it is one of ringing/answered/missed/rejected,
maps the aliases no_answer and noanswer to missed, and returns ringing
for any other value including an absent one; "WEIRD" normalizes to
ringing, "NO_ANSWER" to missed; and a malformed status never causes the
ingestion to be rejected (the POST response does not depend on the
status field at all). -/
theorem normalizeStatus_spec :
    (∀ v : String,
      normalizeStatus (some v) =
        (if jsToLower (jsTrim v) = "ringing" ∨ jsToLower (jsTrim v) = "answered" ∨
            jsToLower (jsTrim v) = "missed" ∨ jsToLower (jsTrim v) = "rejected" then
          jsToLower (jsTrim v)
        else if jsToLower (jsTrim v) = "no_answer" ∨ jsToLower (jsTrim v) = "noanswer" then
          "missed"
        else "ringing")) ∧
    normalizeStatus none = "ringing" ∧
    normalizeStatus (some "WEIRD") = "ringing" ∧
    normalizeStatus (some "NO_ANSWER") = "missed" ∧
    (∀ (env : Option String) (req : IngressRequest) (w : Nat → Bool) (st : ServerState)
        (s1 s2 : Option String),
      (handlePost env { req with status := s1 } w st).2 =
        (handlePost env { req with status := s2 } w st).2) := by
  refine ⟨?_, rfl, by decide, by decide, ?_⟩
  · intro v
    by_cases hv : v = ""
    · subst hv
      decide
    · simp only [normalizeStatus]
      rw [if_neg hv]
      split_ifs with h1 h2 h3 h4 h5 h6 h7 h8 <;>
        simp_all [STATUS_LABELS, List.contains, List.elem_eq_mem]
  · intro env req w st s1 s2
    rw [handlePost_resp, handlePost_resp]
    rfl

/-- C7: an ingestion request that fails the configured-secret check is
answered 401 with the whole state unchanged, and a request that passes
the secret check (or faces no configured secret) whose phone-like field
is empty or absent is answered 400 with History Ring, lastCall and the
sequence counter exactly as before (the 401 clause takes precedence:
the secret is checked before the phone field is read). -/
theorem postErrors_leave_state_unchanged (env : Option String) (req : IngressRequest)
    (w : Nat → Bool) (st : ServerState) :
    (authRejects env req = true → handlePost env req w st = (st, .unauthorized)) ∧
    (authRejects env req = false → phoneRaw req = "" →
      (handlePost env req w st).2 = .badRequest ∧
      (handlePost env req w st).1.callHistory = st.callHistory ∧
      (handlePost env req w st).1.lastCall = st.lastCall ∧
      (handlePost env req w st).1.sequence = st.sequence) := by
  constructor
  · exact handlePost_eq_unauth env req w st
  · intro ha hp
    have hempty : sanitizePhone (some (phoneRaw req)) = ⟨"", ""⟩ := by
      rw [hp]
      decide
    rw [handlePost_eq_body env req w st ha,
      handlePostBody_badRequest req w (warnAdjust env st) hempty]
    obtain ⟨_, h2, h3, h4⟩ := warnAdjust_fields env st
    exact ⟨rfl, h4, h2, h3⟩

/-- Witness for C7: a request with a wrong secret against a configured
secret is answered 401 without touching the state, and an open-mode
request with an absent phone field is answered 400 with history,
lastCall and the counter untouched. -/
theorem postErrors_leave_state_unchanged_witness :
    (handlePost (some "sec")
        { headerSecret := some "wrong", bodySecret := none, querySecret := none,
          phone := none, caller := none, number := none, extension := none,
          source := none, status := none, note := none, name := none,
          personId := none, receivedAt := "t" } (fun _ => true) initialState =
      (initialState, .unauthorized)) ∧
    ((handlePost none
        { headerSecret := none, bodySecret := none, querySecret := none,
          phone := none, caller := none, number := none, extension := none,
          source := none, status := none, note := none, name := none,
          personId := none, receivedAt := "t" } (fun _ => true) initialState).2 =
      .badRequest ∧
      (handlePost none
        { headerSecret := none, bodySecret := none, querySecret := none,
          phone := none, caller := none, number := none, extension := none,
          source := none, status := none, note := none, name := none,
          personId := none, receivedAt := "t" } (fun _ => true) initialState).1.callHistory =
        initialState.callHistory ∧
      (handlePost none
        { headerSecret := none, bodySecret := none, querySecret := none,
          phone := none, caller := none, number := none, extension := none,
          source := none, status := none, note := none, name := none,
          personId := none, receivedAt := "t" } (fun _ => true) initialState).1.lastCall =
        initialState.lastCall ∧
      (handlePost none
        { headerSecret := none, bodySecret := none, querySecret := none,
          phone := none, caller := none, number := none, extension := none,
          source := none, status := none, note := none, name := none,
          personId := none, receivedAt := "t" } (fun _ => true) initialState).1.sequence =
        initialState.sequence) :=
  ⟨(postErrors_leave_state_unchanged (some "sec") _ (fun _ => true) initialState).1 (by decide),
   (postErrors_leave_state_unchanged none _ (fun _ => true) initialState).2 (by decide) (by decide)⟩

/-! ### Outcome characterization of the POST handler (C1, C10) -/

lemma handlePost_ok_char (env : Option String) (req : IngressRequest) (w : Nat → Bool)
    (st : ServerState) (h : (handlePost env req w st).2 = .ok) :
    (handlePost env req w st).1.sequence = st.sequence + 1 ∧
    (handlePost env req w st).1.lastCall =
      some (mkEntry req (st.sequence + 1) (sanitizePhone (some (phoneRaw req)))) ∧
    (handlePost env req w st).1.callHistory =
      storeInHistory (mkEntry req (st.sequence + 1) (sanitizePhone (some (phoneRaw req))))
        st.callHistory := by
  by_cases ha : authRejects env req = true
  · rw [handlePost_eq_unauth env req w st ha] at h
    exact absurd h (by simp)
  · have ha' : authRejects env req = false := by simpa using ha
    by_cases hp : sanitizePhone (some (phoneRaw req)) = ⟨"", ""⟩
    · rw [handlePost_eq_body env req w st ha',
        handlePostBody_badRequest req w (warnAdjust env st) hp] at h
      exact absurd h (by simp)
    · obtain ⟨h1, h2, h3, h4⟩ := warnAdjust_fields env st
      rw [handlePost_eq_body env req w st ha', handlePostBody_ok req w (warnAdjust env st) hp]
      refine ⟨by simp [h3], by simp [h3], by simp [h3, h4]⟩

lemma handlePost_err_char (env : Option String) (req : IngressRequest) (w : Nat → Bool)
    (st : ServerState) (h : (handlePost env req w st).2 ≠ .ok) :
    (handlePost env req w st).1.sequence = st.sequence ∧
    (handlePost env req w st).1.lastCall = st.lastCall ∧
    (handlePost env req w st).1.callHistory = st.callHistory := by
  by_cases ha : authRejects env req = true
  · rw [handlePost_eq_unauth env req w st ha]
    exact ⟨rfl, rfl, rfl⟩
  · have ha' : authRejects env req = false := by simpa using ha
    by_cases hp : sanitizePhone (some (phoneRaw req)) = ⟨"", ""⟩
    · obtain ⟨h1, h2, h3, h4⟩ := warnAdjust_fields env st
      rw [handlePost_eq_body env req w st ha',
        handlePostBody_badRequest req w (warnAdjust env st) hp]
      exact ⟨h3, h2, h4⟩
    · rw [handlePost_eq_body env req w st ha', handlePostBody_ok req w (warnAdjust env st) hp] at h
      exact absurd rfl h

lemma storeInHistory_head (e : CallEntry) (h : List CallEntry) :
    (storeInHistory e h).head? = some e := by
  cases h with
  | nil => rfl
  | cons a t =>
    show (if (e :: a :: t).length > MAX_HISTORY then (e :: a :: t).dropLast
      else (e :: a :: t)).head? = some e
    split <;> rfl

/-- One POST ingestion attempt: the configured secret, the request, and
the per-subscriber write-outcome oracle for its broadcast. -/
structure PostInput where
  env : Option String
  req : IngressRequest
  w : Nat → Bool

/-- The ids assigned to the successfully ingested events of a sequence
of POST requests, in request order (a rejected request contributes
nothing; a successful one contributes the id of the event it stored,
read off the updated lastCall). -/
def runIds : ServerState → List PostInput → List Nat
  | _, [] => []
  | st, i :: rest =>
    let r := handlePost i.env i.req i.w st
    (if r.2 = .ok then
      (match r.1.lastCall with
        | some e => [e.id]
        | none => [])
    else []) ++ runIds r.1 rest

lemma runIds_eq_range (inputs : List PostInput) :
    ∀ st : ServerState, runIds st inputs = List.range' (st.sequence + 1) (runIds st inputs).length := by
  induction inputs with
  | nil => intro st; rfl
  | cons i rest ih =>
    intro st
    by_cases hok : (handlePost i.env i.req i.w st).2 = .ok
    · obtain ⟨hs, hl, _⟩ := handlePost_ok_char i.env i.req i.w st hok
      have hrec := ih (handlePost i.env i.req i.w st).1
      rw [hs] at hrec
      simp only [runIds]
      rw [if_pos hok, hl]
      simp only [List.singleton_append, List.length_cons]
      rw [List.range'_succ]
      exact congrArg₂ List.cons rfl hrec
    · obtain ⟨hs, _, _⟩ := handlePost_err_char i.env i.req i.w st hok
      have hrec := ih (handlePost i.env i.req i.w st).1
      rw [hs] at hrec
      simp only [runIds]
      rw [if_neg hok]
      simpa using hrec

/-- C1: over any sequence of ingestion requests from process start, the
ids of the successfully ingested events are exactly 1, 2, 3, ... in
order — strictly increasing, gap-free, repeat-free, starting at 1, the
n-th success carrying id n — and rejected requests assign no id (they
contribute nothing and do not advance the counter). -/
theorem ingestedIds_are_consecutive_from_one (inputs : List PostInput) :
    runIds initialState inputs = List.range' 1 (runIds initialState inputs).length :=
  runIds_eq_range inputs initialState

/-- C10: in every reachable state, lastCall is absent exactly when the
History Ring is empty, and otherwise equals the newest (head) entry of
the ring. -/
theorem lastCall_mirrors_history_head (st : ServerState) (h : Reachable st) :
    (st.lastCall = none ↔ st.callHistory = []) ∧
    (∀ e, st.lastCall = some e → st.callHistory.head? = some e) := by
  induction h with
  | init => exact ⟨by simp [initialState], by simp [initialState]⟩
  | post env req w st0 h0 ih =>
    by_cases hok : (handlePost env req w st0).2 = .ok
    · obtain ⟨_, hl, hh⟩ := handlePost_ok_char env req w st0 hok
      constructor
      · rw [hl, hh]
        constructor
        · intro hc
          exact Option.noConfusion hc
        · intro hc
          have h2 := storeInHistory_head
            (mkEntry req (st0.sequence + 1) (sanitizePhone (some (phoneRaw req)))) st0.callHistory
          rw [hc] at h2
          exact Option.noConfusion h2
      · intro e he
        rw [hl] at he
        rw [hh, ← Option.some.inj he]
        exact storeInHistory_head _ _
    · obtain ⟨_, hl, hh⟩ := handlePost_err_char env req w st0 hok
      rw [hl, hh]
      exact ih
  | stream user nl st0 h0 ih => cases user <;> exact ih
  | close l st0 h0 ih => exact ih

/-- Witness for C10: the invariant instantiated at the initial state. -/
theorem lastCall_mirrors_history_head_witness :
    (initialState.lastCall = none ↔ initialState.callHistory = []) ∧
    (∀ e, initialState.lastCall = some e → initialState.callHistory.head? = some e) :=
  lastCall_mirrors_history_head initialState Reachable.init

/-! ### The /log endpoint (C8, C9) -/

/-- The limit semantics of the /log read as the amended C8 states them:
100 when the parameter is absent, unparseable, or parses to 0 (all three
are JS-falsy after `Number.parseInt`), otherwise the parsed value
clamped to the interval from 1 to 500. -/
def limitAmended (q : Option Int) : Int :=
  match q with
  | none => 100
  | some v => if v = 0 then 100 else max 1 (min v 500)

lemma effLimit_eq_amended (q : Option Int) : effLimit q = limitAmended q := by
  cases q with
  | none => decide
  | some v =>
    by_cases hv : v = 0
    · subst hv
      decide
    · simp [effLimit, limitAmended, hv]

lemma handleLog_empty_people (q : Option Int) (st : ServerState) (db : DbFn)
    (hdb : ∀ ds, (match db ds with
      | Except.ok rows => buildPeople rows
      | Except.error _ => []) = []) :
    handleLog true q db st =
      .entries ((st.callHistory.take (effLimit q).toNat).map (mkLogRow [])) := by
  simp only [handleLog, Bool.not_true, Bool.false_eq_true, if_false]
  congr 2
  split
  · rfl
  · exact congrArg mkLogRow (hdb _)

lemma mkLogRow_nil_caller (e : CallEntry) :
    (mkLogRow [] e).caller_name =
      if strTruthy e.callerName then e.callerName else none := by
  simp [mkLogRow, strTruthy]

/-- The /log collaborator that always fails, as in the C9 scenario. -/
def failingDb : DbFn := fun _ => .error ()

/-- C9: when the directory lookup fails, the history read still
succeeds and returns exactly what it would have returned with no
enrichment — every caller_name falls back to the (truthy) value stored
at ingestion, or null. -/
theorem logRead_degrades_on_lookup_failure (q : Option Int) (st : ServerState) :
    handleLog true q failingDb st = handleLog true q (fun _ => Except.ok []) st ∧
    (∃ rows, handleLog true q failingDb st = .entries rows ∧
      rows.map LogRow.caller_name =
        (st.callHistory.take (effLimit q).toNat).map
          (fun e => if strTruthy e.callerName then e.callerName else none)) := by
  have hfail := handleLog_empty_people q st failingDb (fun ds => rfl)
  constructor
  · rw [hfail, handleLog_empty_people q st (fun _ => Except.ok []) (fun ds => rfl)]
  · refine ⟨_, hfail, ?_⟩
    rw [List.map_map]
    have hfun : (LogRow.caller_name ∘ mkLogRow []) =
        fun e => if strTruthy e.callerName then e.callerName else none :=
      funext fun e => mkLogRow_nil_caller e
    rw [hfun]

/-- History entry used by the C8 counterexample: stored personId 0
(present, but JS-falsy) and no stored caller name. -/
def cexEntry : CallEntry :=
  { id := 1, phone := "5", digits := "5", extension := none, source := none,
    received_at := "t", status := "ringing", note := none, callerName := none,
    personId := some 0 }

/-- Two-entry history state for the C8 counterexample. -/
def cexState : ServerState :=
  { initialState with
    callHistory := [cexEntry, { cexEntry with id := 2 }],
    lastCall := some cexEntry }

/-- Directory collaborator for the C8 counterexample: phone "5" is
known as person 7. -/
def cexDb : DbFn :=
  fun _ => .ok [some { id := 7, name := some "Dir", phone := some "5" }]

/-- The rows of a /log response (empty for the 401 outcome). -/
def logRowsOf : LogResponse → List LogRow
  | .unauthorized => []
  | .entries rows => rows

/-- Counterexample to C8 as stated: (a) a provided limit parameter of 0
is not clamped to 1 — the read of a two-entry history returns 2 rows,
not min 1 2 = 1 row; (b) a stored (non-absent) personId of 0 does not
take precedence over the directory lookup — both returned rows carry
the looked-up person id 7 although both stored entries carry 0. -/
theorem logRead_claim_counterexample :
    (logRowsOf (handleLog true (some 0) (fun _ => Except.ok []) cexState)).length = 2 ∧
    max 1 (min (0 : Int) 500) = 1 ∧
    cexState.callHistory.length = 2 ∧
    (logRowsOf (handleLog true none cexDb cexState)).map LogRow.person_id =
      [some 7, some 7] ∧
    cexState.callHistory.map CallEntry.personId = [some 0, some 0] := by
  refine ⟨by decide, by decide, by decide, by decide, by decide⟩

/-- C8 (amended): an authorized history read uses limit 100 when the
parameter is absent, unparseable, or parses to 0, and otherwise the
parameter clamped to the interval from 1 to 500; it returns the first
min-of-limit-and-length history entries newest-first; a JS-truthy
(nonempty) stored callerName and a truthy (nonzero) stored personId
take precedence over the directory lookup, and when the stored value is
absent the row falls back to the truthy part of the lookup result, or
null. -/
theorem logRead_clamped_newest_first_enriched (q : Option Int) (db : DbFn)
    (st : ServerState) :
    ∃ rows, handleLog true q db st = .entries rows ∧
      rows.length = min (limitAmended q).toNat st.callHistory.length ∧
      rows.map LogRow.id = (st.callHistory.take (limitAmended q).toNat).map CallEntry.id ∧
      (∀ people e, strTruthy e.callerName = true →
        (mkLogRow people e).caller_name = e.callerName) ∧
      (∀ people e, intTruthy e.personId = true →
        (mkLogRow people e).person_id = e.personId) ∧
      (∀ people e, e.callerName = none →
        (mkLogRow people e).caller_name =
          (if strTruthy ((if e.digits != "" then people.lookup e.digits else none).bind
              PersonRef.name) then
            (if e.digits != "" then people.lookup e.digits else none).bind PersonRef.name
          else none)) ∧
      (∀ people e, e.personId = none →
        (mkLogRow people e).person_id =
          (if intTruthy ((if e.digits != "" then people.lookup e.digits else none).map
              PersonRef.id) then
            (if e.digits != "" then people.lookup e.digits else none).map PersonRef.id
          else none)) := by
  rw [← effLimit_eq_amended]
  refine ⟨_, rfl, ?_, ?_, ?_, ?_, ?_, ?_⟩
  · simp [List.length_take]
  · rw [List.map_map]
    rfl
  · intro people e h
    simp [mkLogRow, h]
  · intro people e h
    simp [mkLogRow, h]
  · intro people e h
    simp [mkLogRow, h, strTruthy]
  · intro people e h
    simp [mkLogRow, h, intTruthy]

/-- Witness for C8 (amended): truthy stored values win over the
lookup, and absent stored values fall back to the lookup, on concrete
rows. -/
theorem logRead_clamped_newest_first_enriched_witness :
    (mkLogRow [("5", { id := 7, name := some "Dir" })]
        { cexEntry with callerName := some "Ana", personId := some 4 }).caller_name =
      some "Ana" ∧
    (mkLogRow [("5", { id := 7, name := some "Dir" })]
        { cexEntry with callerName := some "Ana", personId := some 4 }).person_id =
      some 4 ∧
    (mkLogRow [("5", { id := 7, name := some "Dir" })] cexEntry).caller_name =
      some "Dir" ∧
    (mkLogRow [("5", { id := 7, name := some "Dir" })]
        { cexEntry with personId := none }).person_id = some 7 := by
  obtain ⟨rows, _, _, _, hname, hpid, hfn, hfp⟩ :=
    logRead_clamped_newest_first_enriched none (fun _ => Except.ok []) initialState
  refine ⟨hname _ _ (by decide), hpid _ _ (by decide), ?_, ?_⟩
  · rw [hfn [("5", { id := 7, name := some "Dir" })] cexEntry (by decide)]
    decide
  · rw [hfp [("5", { id := 7, name := some "Dir" })]
      { cexEntry with personId := none } (by decide)]
    decide
